import Mathlib

/-!
Sales history dialog

A shallow embedding of `src/saleshistorydialog.cpp`: the dialog keeps a master table of
invoices and a detail table with the lines of the selected invoice.

* Qt's value conversions (`QVariant::toString`, `toLongLong`, `toDouble`,
  `QString::number(x, 'f', 2)`) are library code and stay parameters (`QtLib`).
* `DatabaseManager` is declared outside the source file; it is a parameter whose answers may
  depend on the calls issued before.
* A function returns `none` where the C++ has no defined result: an out-of-range
  `operator[]` on a `QVariantList`, or a call through a null `m_dbManager`.
* `dbCalls` and `warnings` are ghost fields recording the store queries and the `qWarning`
  lines.
-/

/-! ## Qt values and table widgets -/

/-- The Qt conversions used by the dialog, as parameters. `number x` stands for
`QString::number(x, 'f', 2)` and `invalid` for the default-constructed `QVariant()`. -/
structure QtLib where
  QVariant : Type
  Double : Type
  invalid : QVariant
  toString : QVariant → String
  toLongLong : QVariant → Int
  toDouble : QVariant → Double
  number : Double → String

/-- Text alignments the dialog sets on items: `Qt::AlignRight | Qt::AlignVCenter` and
`Qt::AlignCenter`; `unset` is an item whose alignment was never set. -/
inductive QtAlignment where
  | unset
  | rightVCenter
  | center
  deriving DecidableEq, Repr

/-- A `QTableWidgetItem`: its display text, the value stored under `Qt::UserRole` (if any)
and its text alignment. -/
structure QTableWidgetItem (Q : QtLib) where
  text : String
  userRole : Option Q.QVariant
  textAlignment : QtAlignment

/-- The constructor `QTableWidgetItem(text)`. -/
def QTableWidgetItem.new (Q : QtLib) (text : String) : QTableWidgetItem Q :=
  { text := text, userRole := none, textAlignment := QtAlignment.unset }

/-- The call `setData(Qt::UserRole, v)`. -/
def QTableWidgetItem.setData {Q : QtLib} (it : QTableWidgetItem Q) (v : Q.QVariant) :
    QTableWidgetItem Q :=
  { it with userRole := some v }

/-- The call `data(Qt::UserRole)`: the stored value, or an invalid `QVariant`. -/
def QTableWidgetItem.data {Q : QtLib} (it : QTableWidgetItem Q) : Q.QVariant :=
  it.userRole.getD Q.invalid

/-- The call `setTextAlignment(a)`. -/
def QTableWidgetItem.setTextAlignment {Q : QtLib} (it : QTableWidgetItem Q) (a : QtAlignment) :
    QTableWidgetItem Q :=
  { it with textAlignment := a }

/-- A `QTableWidget` in row selection mode with single selection: the column count, the
cells row by row (`none` is a cell without item) and the selected row. -/
structure QTableWidget (Q : QtLib) where
  columnCount : Nat
  rows : List (List (Option (QTableWidgetItem Q)))
  selectedRow : Option Nat

/-- A freshly created `QTableWidget`: no columns, no rows, nothing selected. -/
def QTableWidget.new (Q : QtLib) : QTableWidget Q :=
  { columnCount := 0, rows := [], selectedRow := none }

/-- The call `rowCount()`. -/
def QTableWidget.rowCount {Q : QtLib} (t : QTableWidget Q) : Nat :=
  t.rows.length

/-- The call `setColumnCount(n)`: every row is cut or padded with empty cells. -/
def QTableWidget.setColumnCount {Q : QtLib} (t : QTableWidget Q) (n : Nat) : QTableWidget Q :=
  { t with
    columnCount := n
    rows := t.rows.map (fun r => r.take n ++ List.replicate (n - r.length) none) }

/-- The call `setRowCount(n)`: rows from `n` on are removed with their items, missing rows
are added with empty cells, and a selected row that no longer exists is deselected. -/
def QTableWidget.setRowCount {Q : QtLib} (t : QTableWidget Q) (n : Nat) : QTableWidget Q :=
  { t with
    rows := t.rows.take n ++ List.replicate (n - t.rows.length) (List.replicate t.columnCount none)
    selectedRow := t.selectedRow.filter (fun r => r < n) }

/-- The call `setItem(row, column, it)`; a cell outside the table is ignored. -/
def QTableWidget.setItem {Q : QtLib} (t : QTableWidget Q) (row column : Nat)
    (it : QTableWidgetItem Q) : QTableWidget Q :=
  if row < t.rows.length ∧ column < t.columnCount then
    { t with rows := t.rows.set row ((t.rows.getD row []).set column (some it)) }
  else t

/-- The call `item(row, column)`: null (`none`) for a cell outside the table or a cell
without item. -/
def QTableWidget.item {Q : QtLib} (t : QTableWidget Q) (row column : Int) :
    Option (QTableWidgetItem Q) :=
  if 0 ≤ row ∧ 0 ≤ column then
    match t.rows[row.toNat]? with
    | none => none
    | some r => (r[column.toNat]?).join
  else none

/-- The call `selectRow(row)`: a row of the table becomes the selected row, any other index
is ignored. -/
def QTableWidget.selectRow {Q : QtLib} (t : QTableWidget Q) (row : Int) : QTableWidget Q :=
  if 0 ≤ row ∧ row < (t.rows.length : Int) then { t with selectedRow := some row.toNat } else t

/-! ## The database manager -/

/-- A query issued to the database manager. -/
inductive DbCall where
  | getInvoices
  | getInvoiceDetails (invoiceId : Int)
  deriving DecidableEq, Repr

/-- The class `DatabaseManager`, declared outside `saleshistorydialog.cpp`, as a parameter: the
two read queries the dialog issues, `getInvoices()` and `getInvoiceDetails(invoiceId)`, each
returning a `QList<QVariantList>`. The first argument is the list of calls issued before this
one, so an answer may change from one call to the next. -/
structure DatabaseManager (Q : QtLib) where
  getInvoices : List DbCall → List (List Q.QVariant)
  getInvoiceDetails : List DbCall → Int → List (List Q.QVariant)

/-! ## The dialog -/

/-- The state of a `SalesHistoryDialog`: the three members of the class, and the ghost
records of the store queries issued and the warnings written. -/
structure SalesHistoryDialog (Q : QtLib) where
  m_dbManager : Option (DatabaseManager Q)
  m_invoicesTable : QTableWidget Q
  m_detailsTable : QTableWidget Q
  dbCalls : List DbCall
  warnings : List String

/-- The method `setupUI()`: both tables are created with three columns (layout, headers and
styling are outside the model). -/
def SalesHistoryDialog.setupUI {Q : QtLib} (s : SalesHistoryDialog Q) : SalesHistoryDialog Q :=
  { s with
    m_invoicesTable := (QTableWidget.new Q).setColumnCount 3
    m_detailsTable := (QTableWidget.new Q).setColumnCount 3 }

/-- The body of the loop of `populateInvoicesTable()` at index `i`. -/
def SalesHistoryDialog.populateInvoicesTable_body {Q : QtLib} (invoices : List (List Q.QVariant))
    (t : QTableWidget Q) (i : Nat) : Option (QTableWidget Q) := do
  let invoiceData ← invoices[i]?
  let v0 ← invoiceData[0]?
  let idItem := (QTableWidgetItem.new Q (Q.toString v0)).setData v0
  let t := t.setItem i 0 idItem
  let v1 ← invoiceData[1]?
  let dateItem := QTableWidgetItem.new Q (Q.toString v1)
  let t := t.setItem i 1 dateItem
  let v2 ← invoiceData[2]?
  let total := Q.toDouble v2
  let totalItem := (QTableWidgetItem.new Q (Q.number total)).setTextAlignment QtAlignment.rightVCenter
  let t := t.setItem i 2 totalItem
  pure t

/-- The method `populateInvoicesTable()`. -/
def SalesHistoryDialog.populateInvoicesTable {Q : QtLib} (s : SalesHistoryDialog Q) :
    Option (SalesHistoryDialog Q) :=
  match s.m_dbManager with
  | none =>
    some { s with warnings := s.warnings ++ ["DatabaseManager not available in SalesHistoryDialog."] }
  | some db =>
    let t := s.m_invoicesTable.setRowCount 0
    let invoices := db.getInvoices s.dbCalls
    let calls := s.dbCalls ++ [DbCall.getInvoices]
    let t := t.setRowCount invoices.length
    ((List.range invoices.length).foldlM
        (SalesHistoryDialog.populateInvoicesTable_body invoices) t).map
      (fun t => { s with m_invoicesTable := t, dbCalls := calls })

/-- The body of the loop of `onInvoiceSelected` at index `i`. -/
def SalesHistoryDialog.onInvoiceSelected_body {Q : QtLib} (details : List (List Q.QVariant))
    (t : QTableWidget Q) (i : Nat) : Option (QTableWidget Q) := do
  let detailData ← details[i]?
  let v0 ← detailData[0]?
  let nameItem := QTableWidgetItem.new Q (Q.toString v0)
  let t := t.setItem i 0 nameItem
  let v1 ← detailData[1]?
  let qtyItem := (QTableWidgetItem.new Q (Q.toString v1)).setTextAlignment QtAlignment.center
  let t := t.setItem i 1 qtyItem
  let v2 ← detailData[2]?
  let price := Q.toDouble v2
  let priceItem := (QTableWidgetItem.new Q (Q.number price)).setTextAlignment QtAlignment.rightVCenter
  let t := t.setItem i 2 priceItem
  pure t

/-- The slot `onInvoiceSelected(row, column)`. -/
def SalesHistoryDialog.onInvoiceSelected {Q : QtLib} (s : SalesHistoryDialog Q)
    (row column : Int) : Option (SalesHistoryDialog Q) :=
  let _ := column
  match s.m_invoicesTable.item row 0 with
  | none => some s
  | some idItem =>
    let invoiceId := Q.toLongLong idItem.data
    let t := s.m_detailsTable.setRowCount 0
    match s.m_dbManager with
    | none => none
    | some db =>
      let details := db.getInvoiceDetails s.dbCalls invoiceId
      let calls := s.dbCalls ++ [DbCall.getInvoiceDetails invoiceId]
      let t := t.setRowCount details.length
      ((List.range details.length).foldlM
          (SalesHistoryDialog.onInvoiceSelected_body details) t).map
        (fun t => { s with m_detailsTable := t, dbCalls := calls })

/-- The constructor `SalesHistoryDialog::SalesHistoryDialog(dbManager, parent)`. Its `connect`
call makes `onInvoiceSelected` the handler of the cells of the invoices table: the step of
`Reachable` below. -/
def SalesHistoryDialog.ctor {Q : QtLib} (dbManager : Option (DatabaseManager Q)) :
    Option (SalesHistoryDialog Q) := do
  let s : SalesHistoryDialog Q :=
    { m_dbManager := dbManager
      m_invoicesTable := QTableWidget.new Q
      m_detailsTable := QTableWidget.new Q
      dbCalls := []
      warnings := [] }
  let s := s.setupUI
  let s ← s.populateInvoicesTable
  if s.m_invoicesTable.rowCount > 0 then
    let s := { s with m_invoicesTable := s.m_invoicesTable.selectRow 0 }
    s.onInvoiceSelected 0 0
  else
    pure s

/-- The invoice that is selected: the id stored under `Qt::UserRole` in column 0 of the
selected row of the invoices table, read the way `onInvoiceSelected` reads it; `none` is the
state `NoSelection`. -/
def SalesHistoryDialog.selectedInvoiceId {Q : QtLib} (s : SalesHistoryDialog Q) : Option Int :=
  match s.m_invoicesTable.selectedRow with
  | none => none
  | some r => (s.m_invoicesTable.item (r : Int) 0).map (fun it => Q.toLongLong it.data)

/-- The states a dialog constructed over `dbManager` reaches by runs of its handler
`onInvoiceSelected`, at any row and column index. -/
inductive SalesHistoryDialog.Reachable {Q : QtLib} (dbManager : Option (DatabaseManager Q)) :
    SalesHistoryDialog Q → Prop where
  | construct (s : SalesHistoryDialog Q) :
      SalesHistoryDialog.ctor dbManager = some s → SalesHistoryDialog.Reachable dbManager s
  | handle (s s' : SalesHistoryDialog Q) (row column : Int) :
      SalesHistoryDialog.Reachable dbManager s →
      SalesHistoryDialog.onInvoiceSelected s row column = some s' →
      SalesHistoryDialog.Reachable dbManager s'

/-- The id of the latest `getInvoiceDetails` query in a record of store queries, `none` when
no such query was issued. -/
def lastDetailsQuery (calls : List DbCall) : Option Int :=
  calls.foldl
    (fun acc c =>
      match c with
      | DbCall.getInvoiceDetails invoiceId => some invoiceId
      | DbCall.getInvoices => acc)
    none

/-! ## What the tables are expected to show -/

/-- The cells of the master row of an invoice with fields `id`, `date`, `total`: the id text
carrying the raw id, the date text, and the total in the two-decimal format. -/
def invoiceCells (Q : QtLib) (id date total : Q.QVariant) : List (Option (QTableWidgetItem Q)) :=
  [ some { text := Q.toString id, userRole := some id, textAlignment := QtAlignment.unset },
    some { text := Q.toString date, userRole := none, textAlignment := QtAlignment.unset },
    some { text := Q.number (Q.toDouble total), userRole := none,
           textAlignment := QtAlignment.rightVCenter } ]

/-- The cells of the detail row of an invoice line with fields `name`, `quantity`, `price`:
the name text, the quantity text, and the price in the two-decimal format. -/
def detailCells (Q : QtLib) (name quantity price : Q.QVariant) :
    List (Option (QTableWidgetItem Q)) :=
  [ some { text := Q.toString name, userRole := none, textAlignment := QtAlignment.unset },
    some { text := Q.toString quantity, userRole := none, textAlignment := QtAlignment.center },
    some { text := Q.number (Q.toDouble price), userRole := none,
           textAlignment := QtAlignment.rightVCenter } ]

/-- The rendering of one store entry: its first three fields go to `cells`; an entry with
fewer than three fields has no rendering. -/
def renderRow {V R : Type} (cells : V → V → V → R) : List V → Option R
  | v0 :: v1 :: v2 :: _ => some (cells v0 v1 v2)
  | _ => none

/-- The rendering of a sequence of store entries: one row per entry, in the given order. -/
def renderRows {V R : Type} (cells : V → V → V → R) : List (List V) → Option (List R)
  | [] => some []
  | d :: ds => (renderRow cells d).bind (fun r => (renderRows cells ds).map (fun rs => r :: rs))

/-- Every entry of a store answer carries at least the three fields the dialog reads. -/
def WellFormedRows {V : Type} (rows : List (List V)) : Prop :=
  ∀ r ∈ rows, 3 ≤ r.length

instance {V : Type} (rows : List (List V)) : Decidable (WellFormedRows rows) := by
  unfold WellFormedRows; infer_instance

/-! ## A sample store -/

/-- A sample instance of the Qt parameters: every value is an integer, money is counted in
whole units. -/
@[reducible] def sampleQt : QtLib :=
  { QVariant := Int
    Double := Int
    invalid := 0
    toString := fun v => toString v
    toLongLong := fun v => v
    toDouble := fun v => v
    number := fun x => toString x ++ ".00" }

/-- A sample store with two invoices. -/
def sampleDb : DatabaseManager sampleQt :=
  { getInvoices := fun _ => [[1, 20240101, 19], [2, 20240102, 42]]
    getInvoiceDetails := fun _ invoiceId =>
      if invoiceId = 1 then [[501, 2, 5], [502, 1, 9]]
      else if invoiceId = 2 then [[503, 1, 42]]
      else [] }

/-- A sample store with no invoice. -/
def emptyDb : DatabaseManager sampleQt :=
  { getInvoices := fun _ => []
    getInvoiceDetails := fun _ _ => [] }

/-! ## Auxiliary states and the invariant -/

/-- The dialog right after `populateInvoicesTable` loaded the master rows `rs` in the
constructor, with `sel` the selected row. -/
def SalesHistoryDialog.loaded {Q : QtLib} (db : DatabaseManager Q)
    (rs : List (List (Option (QTableWidgetItem Q)))) (sel : Option Nat) : SalesHistoryDialog Q :=
  { m_dbManager := some db
    m_invoicesTable := { columnCount := 3, rows := rs, selectedRow := sel }
    m_detailsTable := { columnCount := 3, rows := [], selectedRow := none }
    dbCalls := [DbCall.getInvoices]
    warnings := [] }

/-- What holds in every reachable state of a dialog constructed over `dbManager`: the member
is that manager, the detail table has three columns, the master table shows the rendering of
some invoice list and is empty without a manager; with an empty master table nothing is
selected and the detail table is empty; otherwise row 0 is the selected row and the detail
table shows the rendering of an answer of the store for the id of the latest detail query,
which is the id stored in some master row. -/
def SalesHistoryDialog.Inv {Q : QtLib} (dbManager : Option (DatabaseManager Q))
    (s : SalesHistoryDialog Q) : Prop :=
  s.m_dbManager = dbManager ∧
  s.m_detailsTable.columnCount = 3 ∧
  (∃ invoices, renderRows (invoiceCells Q) invoices = some s.m_invoicesTable.rows) ∧
  (dbManager = none → s.m_invoicesTable.rows = []) ∧
  (s.m_invoicesTable.rows = [] →
    s.m_invoicesTable.selectedRow = none ∧ s.m_detailsTable.rows = []) ∧
  (s.m_invoicesTable.rows ≠ [] →
    s.m_invoicesTable.selectedRow = some 0 ∧
    ∃ db id h row it, dbManager = some db ∧ lastDetailsQuery s.dbCalls = some id ∧
      s.m_invoicesTable.item row 0 = some it ∧ Q.toLongLong it.data = id ∧
      renderRows (detailCells Q) (db.getInvoiceDetails h id) = some s.m_detailsTable.rows)

/-! ## Sample dialogs -/

/-- The sample dialog as the constructor leaves it over `sampleDb`: both invoices in the
master table, row 0 selected, the lines of invoice 1 in the detail table. -/
def sampleDialog : SalesHistoryDialog sampleQt :=
  { m_dbManager := some sampleDb
    m_invoicesTable :=
      { columnCount := 3
        rows := [invoiceCells sampleQt (1 : Int) (20240101 : Int) (19 : Int),
                 invoiceCells sampleQt (2 : Int) (20240102 : Int) (42 : Int)]
        selectedRow := some 0 }
    m_detailsTable :=
      { columnCount := 3
        rows := [detailCells sampleQt (501 : Int) (2 : Int) (5 : Int),
                 detailCells sampleQt (502 : Int) (1 : Int) (9 : Int)]
        selectedRow := none }
    dbCalls := [DbCall.getInvoices, DbCall.getInvoiceDetails 1]
    warnings := [] }

/-- The sample dialog constructed without a database manager. -/
def sampleDialogNoDb : SalesHistoryDialog sampleQt :=
  { m_dbManager := none
    m_invoicesTable := { columnCount := 3, rows := [], selectedRow := none }
    m_detailsTable := { columnCount := 3, rows := [], selectedRow := none }
    dbCalls := []
    warnings := ["DatabaseManager not available in SalesHistoryDialog."] }

/-! ## Lemmas on tables and loops -/

theorem renderRows_append_singleton {V R : Type} (cells : V → V → V → R) (ds : List (List V))
    (d : List V) :
    renderRows cells (ds ++ [d]) =
      (renderRows cells ds).bind (fun rs => (renderRow cells d).map (fun r => rs ++ [r])) := by
  induction ds with
  | nil => simp only [List.nil_append, renderRows]; cases renderRow cells d <;> rfl
  | cons e es ih =>
    rw [List.cons_append, renderRows, ih, renderRows]
    cases renderRow cells e <;> cases renderRows cells es <;> cases renderRow cells d <;> rfl

theorem renderRows_cons_eq_some {V R : Type} (cells : V → V → V → R) (d : List V)
    (ds : List (List V)) (rs : List R) (h : renderRows cells (d :: ds) = some rs) :
    ∃ r rs', renderRow cells d = some r ∧ renderRows cells ds = some rs' ∧ rs = r :: rs' := by
  rw [renderRows] at h
  cases hr : renderRow cells d with
  | none => simp [hr] at h
  | some r =>
    cases hrs : renderRows cells ds with
    | none => simp [hr, hrs] at h
    | some rs' =>
      simp only [hr, hrs, Option.some_bind, Option.map_some', Option.some.injEq] at h
      exact ⟨r, rs', rfl, rfl, h.symm⟩

theorem renderRows_length {V R : Type} (cells : V → V → V → R) :
    ∀ (ds : List (List V)) (rs : List R), renderRows cells ds = some rs → rs.length = ds.length
  | [], rs, h => by simp only [renderRows, Option.some.injEq] at h; subst h; rfl
  | d :: ds, rs, h => by
    obtain ⟨r, rs', _, hrs, rfl⟩ := renderRows_cons_eq_some cells d ds rs h
    simp [renderRows_length cells ds rs' hrs]

theorem renderRows_getElem? {V R : Type} (cells : V → V → V → R) :
    ∀ (ds : List (List V)) (rs : List R), renderRows cells ds = some rs →
      ∀ (i : Nat) (d : List V), ds[i]? = some d → (rs[i]?) = renderRow cells d
  | [], _, _, i, d, hd => by simp at hd
  | e :: es, rs, h, i, d, hd => by
    obtain ⟨r, rs', hr, hrs, rfl⟩ := renderRows_cons_eq_some cells e es rs h
    cases i with
    | zero =>
      simp only [List.getElem?_cons_zero, Option.some.injEq] at hd
      subst hd
      simp [hr]
    | succ j =>
      simp only [List.getElem?_cons_succ] at hd ⊢
      exact renderRows_getElem? cells es rs' hrs j d hd

theorem renderRows_of_wellFormed {V R : Type} (cells : V → V → V → R) :
    ∀ (ds : List (List V)), WellFormedRows ds → ∃ rs, renderRows cells ds = some rs
  | [], _ => ⟨[], rfl⟩
  | d :: ds, h => by
    have hd : 3 ≤ d.length := h d (List.mem_cons_self _ _)
    have hds : WellFormedRows ds := fun r hr => h r (List.mem_cons_of_mem _ hr)
    obtain ⟨rs, hrs⟩ := renderRows_of_wellFormed cells ds hds
    match d, hd with
    | v0 :: v1 :: v2 :: rest, _ =>
      exact ⟨cells v0 v1 v2 :: rs, by simp [renderRows, renderRow, hrs]⟩

theorem QTableWidget.setItem_at {Q : QtLib} (t : QTableWidget Q)
    (pre post : List (List (Option (QTableWidgetItem Q)))) (r : List (Option (QTableWidgetItem Q)))
    (j : Nat) (it : QTableWidgetItem Q) (h : t.rows = pre ++ r :: post)
    (hj : j < t.columnCount) :
    t.setItem pre.length j it = { t with rows := pre ++ (r.set j (some it)) :: post } := by
  unfold QTableWidget.setItem
  have h1 : pre.length < t.rows.length := by rw [h]; simp
  have h2 : t.rows.getD pre.length [] = r := by
    rw [h, List.getD_eq_getElem?_getD, List.getElem?_append_right (Nat.le_refl _)]
    simp
  rw [if_pos ⟨h1, hj⟩, h2, h]
  simp

theorem SalesHistoryDialog.populateInvoicesTable_body_at {Q : QtLib}
    (invoices : List (List Q.QVariant)) (t : QTableWidget Q)
    (pre post : List (List (Option (QTableWidgetItem Q)))) (d : List Q.QVariant)
    (h : t.rows = pre ++ List.replicate 3 none :: post) (hc : t.columnCount = 3)
    (hd : invoices[pre.length]? = some d) :
    SalesHistoryDialog.populateInvoicesTable_body invoices t pre.length =
      (renderRow (invoiceCells Q) d).map (fun r => { t with rows := pre ++ r :: post }) := by
  unfold SalesHistoryDialog.populateInvoicesTable_body
  rw [hd]
  match d with
  | [] => rfl
  | [_] => rfl
  | [_, _] => rfl
  | v0 :: v1 :: v2 :: rest =>
    simp only [Option.bind_eq_bind, Option.some_bind, List.getElem?_cons_zero,
      List.getElem?_cons_succ, renderRow, Option.map_some', Option.pure_def]
    rw [QTableWidget.setItem_at t pre post _ 0 _ h (by omega)]
    rw [QTableWidget.setItem_at _ pre post _ 1 _ rfl (by simp [hc])]
    rw [QTableWidget.setItem_at _ pre post _ 2 _ rfl (by simp [hc])]
    rfl

theorem SalesHistoryDialog.onInvoiceSelected_body_at {Q : QtLib}
    (details : List (List Q.QVariant)) (t : QTableWidget Q)
    (pre post : List (List (Option (QTableWidgetItem Q)))) (d : List Q.QVariant)
    (h : t.rows = pre ++ List.replicate 3 none :: post) (hc : t.columnCount = 3)
    (hd : details[pre.length]? = some d) :
    SalesHistoryDialog.onInvoiceSelected_body details t pre.length =
      (renderRow (detailCells Q) d).map (fun r => { t with rows := pre ++ r :: post }) := by
  unfold SalesHistoryDialog.onInvoiceSelected_body
  rw [hd]
  match d with
  | [] => rfl
  | [_] => rfl
  | [_, _] => rfl
  | v0 :: v1 :: v2 :: rest =>
    simp only [Option.bind_eq_bind, Option.some_bind, List.getElem?_cons_zero,
      List.getElem?_cons_succ, renderRow, Option.map_some', Option.pure_def]
    rw [QTableWidget.setItem_at t pre post _ 0 _ h (by omega)]
    rw [QTableWidget.setItem_at _ pre post _ 1 _ rfl (by simp [hc])]
    rw [QTableWidget.setItem_at _ pre post _ 2 _ rfl (by simp [hc])]
    rfl

/-- A loop over the indices of `ds` whose body fills the blank row `i` with the rendering of
`ds[i]` computes the rendering of `ds`, and fails exactly when some entry has no rendering. -/
theorem fill_loop {Q : QtLib} (cells : Q.QVariant → Q.QVariant → Q.QVariant →
      List (Option (QTableWidgetItem Q)))
    (ds : List (List Q.QVariant)) (body : QTableWidget Q → Nat → Option (QTableWidget Q))
    (hbody : ∀ (t : QTableWidget Q) (pre post : List (List (Option (QTableWidgetItem Q))))
      (d : List Q.QVariant), t.rows = pre ++ List.replicate 3 none :: post →
      t.columnCount = 3 → ds[pre.length]? = some d →
      body t pre.length = (renderRow cells d).map (fun r => { t with rows := pre ++ r :: post }))
    (t : QTableWidget Q) (hc : t.columnCount = 3)
    (hrows : t.rows = List.replicate ds.length (List.replicate 3 none)) :
    (List.range ds.length).foldlM body t =
      (renderRows cells ds).map (fun rs => { t with rows := rs }) := by
  have key : ∀ k, k ≤ ds.length → (List.range k).foldlM body t =
      (renderRows cells (ds.take k)).map
        (fun rs => { t with rows := rs ++ List.replicate (ds.length - k) (List.replicate 3 none) }) := by
    intro k
    induction k with
    | zero =>
      intro _
      simp only [List.range_zero, List.foldlM_nil, List.take_zero, renderRows, Option.map_some',
        List.nil_append, Nat.sub_zero, Option.pure_def, ← hrows]
    | succ k ih =>
      intro hk
      have hk' : k < ds.length := hk
      rw [List.range_succ, List.foldlM_append, ih (Nat.le_of_lt hk'), List.take_succ,
        List.getElem?_eq_getElem hk', Option.toList_some, renderRows_append_singleton]
      cases hrs : renderRows cells (ds.take k) with
      | none => rfl
      | some rs =>
        have hlen : rs.length = k := by
          rw [renderRows_length cells _ rs hrs, List.length_take]; omega
        have hsplit : List.replicate (ds.length - k) (List.replicate 3 (none : Option (QTableWidgetItem Q)))
            = List.replicate 3 none :: List.replicate (ds.length - (k + 1)) (List.replicate 3 none) := by
          have : ds.length - k = (ds.length - (k + 1)) + 1 := by omega
          rw [this, List.replicate_succ]
        simp only [Option.map_some', Option.bind_eq_bind, Option.some_bind, List.foldlM_cons,
          List.foldlM_nil]
        have hb := hbody { t with rows := rs ++ List.replicate (ds.length - k) (List.replicate 3 none) }
          rs (List.replicate (ds.length - (k + 1)) (List.replicate 3 none)) ds[k]
          (by simp only [hsplit]) hc (by rw [hlen]; exact List.getElem?_eq_getElem hk')
        rw [hlen] at hb
        rw [hb]
        cases renderRow cells ds[k] with
        | none => rfl
        | some r => simp
  have := key ds.length (Nat.le_refl _)
  simpa using this

theorem QTableWidget.setRowCount_fresh {Q : QtLib} (t : QTableWidget Q) (n : Nat) :
    (t.setRowCount 0).setRowCount n =
      { columnCount := t.columnCount
        rows := List.replicate n (List.replicate t.columnCount none)
        selectedRow := none } := by
  cases h : t.selectedRow <;> simp [QTableWidget.setRowCount, h, Option.filter]

/-- With a database manager, `populateInvoicesTable` shows the rendering of the invoice list
and records the query; it has no result exactly when an entry lacks a field. -/
theorem SalesHistoryDialog.populateInvoicesTable_eq {Q : QtLib} (s : SalesHistoryDialog Q)
    (db : DatabaseManager Q) (hdb : s.m_dbManager = some db)
    (hc : s.m_invoicesTable.columnCount = 3) :
    s.populateInvoicesTable =
      (renderRows (invoiceCells Q) (db.getInvoices s.dbCalls)).map (fun rs =>
        { s with
          m_invoicesTable := { columnCount := 3, rows := rs, selectedRow := none }
          dbCalls := s.dbCalls ++ [DbCall.getInvoices] }) := by
  unfold SalesHistoryDialog.populateInvoicesTable
  rw [hdb]
  simp only [QTableWidget.setRowCount_fresh, hc]
  rw [fill_loop (invoiceCells Q) (db.getInvoices s.dbCalls) _
    (fun t pre post d h1 h2 h3 =>
      SalesHistoryDialog.populateInvoicesTable_body_at _ t pre post d h1 h2 h3) _ rfl rfl]
  cases renderRows (invoiceCells Q) (db.getInvoices s.dbCalls) <;> rfl

/-- On a row with an id item and with a database manager, `onInvoiceSelected` queries the
details of the stored id and shows their rendering in place of the former detail rows; it
has no result exactly when an entry lacks a field. -/
theorem SalesHistoryDialog.onInvoiceSelected_eq {Q : QtLib} (s : SalesHistoryDialog Q)
    (db : DatabaseManager Q) (row column : Int) (idItem : QTableWidgetItem Q)
    (hdb : s.m_dbManager = some db) (hc : s.m_detailsTable.columnCount = 3)
    (hitem : s.m_invoicesTable.item row 0 = some idItem) :
    s.onInvoiceSelected row column =
      (renderRows (detailCells Q)
          (db.getInvoiceDetails s.dbCalls (Q.toLongLong idItem.data))).map (fun rs =>
        { s with
          m_detailsTable := { columnCount := 3, rows := rs, selectedRow := none }
          dbCalls := s.dbCalls ++ [DbCall.getInvoiceDetails (Q.toLongLong idItem.data)] }) := by
  unfold SalesHistoryDialog.onInvoiceSelected
  rw [hitem, hdb]
  simp only [QTableWidget.setRowCount_fresh, hc]
  rw [fill_loop (detailCells Q) _ _
    (fun t pre post d h1 h2 h3 =>
      SalesHistoryDialog.onInvoiceSelected_body_at _ t pre post d h1 h2 h3) _ rfl rfl]
  cases renderRows (detailCells Q) (db.getInvoiceDetails s.dbCalls (Q.toLongLong idItem.data)) <;> rfl

/-- Without an id item at `(row, 0)` the slot returns at once. -/
theorem SalesHistoryDialog.onInvoiceSelected_missing {Q : QtLib} (s : SalesHistoryDialog Q)
    (row column : Int) (hitem : s.m_invoicesTable.item row 0 = none) :
    s.onInvoiceSelected row column = some s := by
  unfold SalesHistoryDialog.onInvoiceSelected
  rw [hitem]

theorem QTableWidget.item_out_of_range {Q : QtLib} (t : QTableWidget Q) (row column : Int)
    (h : row < 0 ∨ (t.rowCount : Int) ≤ row) : t.item row column = none := by
  unfold QTableWidget.item
  split
  · next hpos =>
    have h2 : t.rows.length ≤ row.toNat := by
      unfold QTableWidget.rowCount at h
      omega
    rw [List.getElem?_eq_none h2]
  · rfl

/-- In a master table that shows the rendering of `invoices`, the item at `(i, 0)` is the id
item of `invoices[i]`. -/
theorem QTableWidget.item_of_rendered {Q : QtLib} (t : QTableWidget Q)
    (invoices : List (List Q.QVariant))
    (h : renderRows (invoiceCells Q) invoices = some t.rows) (i : Nat)
    (id date total : Q.QVariant) (rest : List Q.QVariant)
    (hi : invoices[i]? = some (id :: date :: total :: rest)) :
    t.item (i : Int) 0 =
      some { text := Q.toString id, userRole := some id, textAlignment := QtAlignment.unset } := by
  have h1 := renderRows_getElem? (invoiceCells Q) invoices t.rows h i _ hi
  unfold QTableWidget.item
  simp [h1, renderRow, invoiceCells]

/-- In a master table that shows the rendering of some invoice list, every row below the row
count has an id item. -/
theorem QTableWidget.item_isSome_of_rendered {Q : QtLib} (t : QTableWidget Q)
    (invoices : List (List Q.QVariant))
    (h : renderRows (invoiceCells Q) invoices = some t.rows) (i : Nat) (hi : i < t.rows.length) :
    ∃ it, t.item (i : Int) 0 = some it := by
  have hlen := renderRows_length _ _ _ h
  have hi2 : i < invoices.length := by omega
  have h1 := renderRows_getElem? (invoiceCells Q) invoices t.rows h i _ (List.getElem?_eq_getElem hi2)
  rw [List.getElem?_eq_getElem hi] at h1
  match hd : invoices[i], h1 with
  | [], h1 => simp [renderRow] at h1
  | [_], h1 => simp [renderRow] at h1
  | [_, _], h1 => simp [renderRow] at h1
  | v0 :: v1 :: v2 :: rest, h1 =>
    exact ⟨_, QTableWidget.item_of_rendered t invoices h i v0 v1 v2 rest
      (by rw [List.getElem?_eq_getElem hi2, hd])⟩

theorem SalesHistoryDialog.ctor_some {Q : QtLib} (db : DatabaseManager Q)
    (rs : List (List (Option (QTableWidgetItem Q))))
    (h : renderRows (invoiceCells Q) (db.getInvoices []) = some rs) :
    SalesHistoryDialog.ctor (some db) =
      if rs.length > 0 then (SalesHistoryDialog.loaded db rs (some 0)).onInvoiceSelected 0 0
      else some (SalesHistoryDialog.loaded db rs none) := by
  unfold SalesHistoryDialog.ctor
  simp only [Option.bind_eq_bind, Option.pure_def]
  rw [SalesHistoryDialog.populateInvoicesTable_eq _ db rfl rfl]
  simp only [SalesHistoryDialog.setupUI, List.nil_append]
  rw [h]
  simp only [Option.map_some', Option.some_bind, QTableWidget.rowCount]
  split
  · next hpos =>
    have : (0 : Int) < (rs.length : Int) := by exact_mod_cast hpos
    simp only [SalesHistoryDialog.loaded, QTableWidget.selectRow, this, Int.le_refl, and_self,
      if_true, Int.toNat_zero]
    rfl
  · rfl

theorem SalesHistoryDialog.ctor_fails {Q : QtLib} (db : DatabaseManager Q)
    (h : renderRows (invoiceCells Q) (db.getInvoices []) = none) :
    SalesHistoryDialog.ctor (some db) = none := by
  unfold SalesHistoryDialog.ctor
  simp only [Option.bind_eq_bind, Option.pure_def]
  rw [SalesHistoryDialog.populateInvoicesTable_eq _ db rfl rfl]
  simp only [SalesHistoryDialog.setupUI, List.nil_append]
  rw [h]
  rfl

theorem SalesHistoryDialog.ctor_none {Q : QtLib} :
    SalesHistoryDialog.ctor (none : Option (DatabaseManager Q)) =
      some { m_dbManager := none
             m_invoicesTable := { columnCount := 3, rows := [], selectedRow := none }
             m_detailsTable := { columnCount := 3, rows := [], selectedRow := none }
             dbCalls := []
             warnings := ["DatabaseManager not available in SalesHistoryDialog."] } := by
  rfl

/-- A non-empty, well-formed invoice list: the constructor loads it, selects row 0 and shows
the details of the first invoice. -/
theorem SalesHistoryDialog.ctor_nonempty {Q : QtLib} (db : DatabaseManager Q)
    (id date total : Q.QVariant) (rest : List Q.QVariant) (more : List (List Q.QVariant))
    (hinv : db.getInvoices [] = (id :: date :: total :: rest) :: more)
    (hmore : WellFormedRows more)
    (hdet : WellFormedRows (db.getInvoiceDetails [DbCall.getInvoices] (Q.toLongLong id))) :
    ∃ rs ds, renderRows (invoiceCells Q) (db.getInvoices []) = some rs ∧
      renderRows (detailCells Q)
        (db.getInvoiceDetails [DbCall.getInvoices] (Q.toLongLong id)) = some ds ∧
      SalesHistoryDialog.ctor (some db) =
        some { m_dbManager := some db
               m_invoicesTable := { columnCount := 3, rows := rs, selectedRow := some 0 }
               m_detailsTable := { columnCount := 3, rows := ds, selectedRow := none }
               dbCalls := [DbCall.getInvoices, DbCall.getInvoiceDetails (Q.toLongLong id)]
               warnings := [] } := by
  have hwf : WellFormedRows (db.getInvoices []) := by
    rw [hinv]
    intro r hr
    rcases List.mem_cons.mp hr with h | h
    · subst h; simp
    · exact hmore r h
  obtain ⟨rs, hrs⟩ := renderRows_of_wellFormed (invoiceCells Q) _ hwf
  obtain ⟨ds, hds⟩ := renderRows_of_wellFormed (detailCells Q) _ hdet
  refine ⟨rs, ds, hrs, hds, ?_⟩
  have hlen : rs.length > 0 := by
    rw [renderRows_length _ _ _ hrs, hinv]; simp
  rw [SalesHistoryDialog.ctor_some db rs hrs, if_pos hlen]
  have hitem := QTableWidget.item_of_rendered
    (SalesHistoryDialog.loaded db rs (some 0)).m_invoicesTable (db.getInvoices []) hrs 0
    id date total rest (by rw [hinv]; simp)
  rw [SalesHistoryDialog.onInvoiceSelected_eq _ db 0 0 _ rfl rfl hitem]
  simp only [QTableWidgetItem.data, Option.getD_some, SalesHistoryDialog.loaded]
  rw [hds]
  rfl

/-! ## The invariant holds in the reachable states -/

theorem lastDetailsQuery_append_details (calls : List DbCall) (invoiceId : Int) :
    lastDetailsQuery (calls ++ [DbCall.getInvoiceDetails invoiceId]) = some invoiceId := by
  simp [lastDetailsQuery, List.foldl_append]

theorem SalesHistoryDialog.inv_ctor {Q : QtLib} (dbManager : Option (DatabaseManager Q))
    (s : SalesHistoryDialog Q) (h : SalesHistoryDialog.ctor dbManager = some s) :
    SalesHistoryDialog.Inv dbManager s := by
  cases dbManager with
  | none =>
    rw [SalesHistoryDialog.ctor_none, Option.some.injEq] at h
    subst h
    refine ⟨rfl, rfl, ⟨[], rfl⟩, fun _ => rfl, fun _ => ⟨rfl, rfl⟩, ?_⟩
    intro hne
    exact absurd rfl hne
  | some db =>
    cases hrs : renderRows (invoiceCells Q) (db.getInvoices []) with
    | none => rw [SalesHistoryDialog.ctor_fails db hrs] at h; cases h
    | some rs =>
      rw [SalesHistoryDialog.ctor_some db rs hrs] at h
      split at h
      · next hpos =>
        obtain ⟨it, hit⟩ := QTableWidget.item_isSome_of_rendered
          (SalesHistoryDialog.loaded db rs (some 0)).m_invoicesTable _ hrs 0 hpos
        rw [SalesHistoryDialog.onInvoiceSelected_eq _ db 0 0 it rfl rfl hit] at h
        cases hds : renderRows (detailCells Q)
            (db.getInvoiceDetails (SalesHistoryDialog.loaded db rs (some 0)).dbCalls
              (Q.toLongLong it.data)) with
        | none => rw [hds] at h; cases h
        | some ds =>
          rw [hds, Option.map_some', Option.some.injEq] at h
          subst h
          refine ⟨rfl, rfl, ⟨_, hrs⟩, ?_, ?_, ?_⟩
          · intro hn; cases hn
          · intro hempty
            have hrs0 : rs = [] := hempty
            rw [hrs0] at hpos
            exact absurd hpos (Nat.lt_irrefl 0)
          · intro _
            exact ⟨rfl, db, Q.toLongLong it.data, _, 0, it, rfl,
              lastDetailsQuery_append_details _ _, hit, rfl, hds⟩
      · next hpos =>
        rw [Option.some.injEq] at h
        subst h
        refine ⟨rfl, rfl, ⟨_, hrs⟩, ?_, fun _ => ⟨rfl, rfl⟩, ?_⟩
        · intro hn; cases hn
        · intro hne
          have hrs0 : rs ≠ [] := hne
          exact absurd (List.length_pos.mpr hrs0) hpos

theorem SalesHistoryDialog.inv_onInvoiceSelected {Q : QtLib}
    (dbManager : Option (DatabaseManager Q)) (s s' : SalesHistoryDialog Q) (row column : Int)
    (hinv : SalesHistoryDialog.Inv dbManager s)
    (h : s.onInvoiceSelected row column = some s') : SalesHistoryDialog.Inv dbManager s' := by
  obtain ⟨hdb, hc, ⟨invoices, hrs⟩, hnull, hempty, hfull⟩ := hinv
  cases hit : s.m_invoicesTable.item row 0 with
  | none =>
    rw [SalesHistoryDialog.onInvoiceSelected_missing _ row column hit, Option.some.injEq] at h
    subst h
    exact ⟨hdb, hc, ⟨invoices, hrs⟩, hnull, hempty, hfull⟩
  | some it =>
    have hne : s.m_invoicesTable.rows ≠ [] := by
      intro hnil
      have hout : s.m_invoicesTable.item row 0 = none := by
        apply QTableWidget.item_out_of_range
        simp only [QTableWidget.rowCount, hnil, List.length_nil]
        omega
      rw [hout] at hit
      cases hit
    cases hd : dbManager with
    | none => exact absurd (hnull hd) hne
    | some db =>
      rw [SalesHistoryDialog.onInvoiceSelected_eq s db row column it (by rw [← hd]; exact hdb) hc
        hit] at h
      cases hds : renderRows (detailCells Q) (db.getInvoiceDetails s.dbCalls
          (Q.toLongLong it.data)) with
      | none => simp only [hds] at h; cases h
      | some ds =>
        simp only [hds, Option.map_some', Option.some.injEq] at h
        subst h
        refine ⟨by rw [← hd]; exact hdb, rfl, ⟨invoices, hrs⟩, ?_, ?_, ?_⟩
        · intro hn; cases hn
        · intro hnil
          exact absurd hnil hne
        · intro _
          exact ⟨(hfull hne).1, db, Q.toLongLong it.data, s.dbCalls, row, it, rfl,
            lastDetailsQuery_append_details _ _, hit, rfl, hds⟩

theorem SalesHistoryDialog.inv_of_reachable {Q : QtLib} (dbManager : Option (DatabaseManager Q))
    (s : SalesHistoryDialog Q) (h : SalesHistoryDialog.Reachable dbManager s) :
    SalesHistoryDialog.Inv dbManager s := by
  induction h with
  | construct s hs => exact SalesHistoryDialog.inv_ctor dbManager s hs
  | handle s s' row column _ hstep ih =>
    exact SalesHistoryDialog.inv_onInvoiceSelected dbManager s s' row column ih hstep

/-- In the model a call through a null `m_dbManager` has no result: on a row with an id item
and without a manager, `onInvoiceSelected` yields `none`. -/
theorem SalesHistoryDialog.onInvoiceSelected_null_manager {Q : QtLib} (s : SalesHistoryDialog Q)
    (row column : Int) (idItem : QTableWidgetItem Q)
    (hitem : s.m_invoicesTable.item row 0 = some idItem) (hnull : s.m_dbManager = none) :
    s.onInvoiceSelected row column = none := by
  unfold SalesHistoryDialog.onInvoiceSelected
  rw [hitem, hnull]

/-- Every reachable state meets the conditions under which `onInvoiceSelected` is studied
below: a three-column detail table, a master table that renders an invoice list, and a
database manager whenever the master table has a row. -/
theorem SalesHistoryDialog.reachable_conditions {Q : QtLib}
    (dbManager : Option (DatabaseManager Q)) (s : SalesHistoryDialog Q)
    (h : SalesHistoryDialog.Reachable dbManager s) :
    s.m_detailsTable.columnCount = 3 ∧
    (∃ invoices, renderRows (invoiceCells Q) invoices = some s.m_invoicesTable.rows) ∧
    (s.m_invoicesTable.rows ≠ [] → ∃ db, s.m_dbManager = some db) := by
  obtain ⟨hdb, hc, hrs, hempty, _, _⟩ := SalesHistoryDialog.inv_of_reachable dbManager s h
  refine ⟨hc, hrs, fun hne => ?_⟩
  cases hd : dbManager with
  | none => exact absurd (hempty hd) hne
  | some db => exact ⟨db, by rw [hdb, hd]⟩

/-! ## The claims -/

/-- C1: for a store whose invoice list is non-empty, every entry carrying id, date and total,
the constructor returns a dialog whose master table has one row per returned invoice, row `i`
holding the id, the date text and the two-decimal total of the `i`-th returned invoice, in
the returned order; the selected row is row 0 and the selection is the id of the first
entry. -/
theorem ctor_master_rows_and_selection {Q : QtLib} (db : DatabaseManager Q)
    (id date total : Q.QVariant) (rest : List Q.QVariant) (more : List (List Q.QVariant))
    (hinv : db.getInvoices [] = (id :: date :: total :: rest) :: more)
    (hmore : WellFormedRows more)
    (hdet : WellFormedRows (db.getInvoiceDetails [DbCall.getInvoices] (Q.toLongLong id))) :
    ∃ s, SalesHistoryDialog.ctor (some db) = some s ∧
      s.m_invoicesTable.rowCount = (db.getInvoices []).length ∧
      renderRows (invoiceCells Q) (db.getInvoices []) = some s.m_invoicesTable.rows ∧
      (∀ (i : Nat) (v0 v1 v2 : Q.QVariant) (r : List Q.QVariant),
        (db.getInvoices [])[i]? = some (v0 :: v1 :: v2 :: r) →
        s.m_invoicesTable.rows[i]? = some (invoiceCells Q v0 v1 v2)) ∧
      s.m_invoicesTable.selectedRow = some 0 ∧
      s.selectedInvoiceId = some (Q.toLongLong id) := by
  obtain ⟨rs, ds, hrs, _, hctor⟩ :=
    SalesHistoryDialog.ctor_nonempty db id date total rest more hinv hmore hdet
  refine ⟨_, hctor, ?_, hrs, ?_, rfl, ?_⟩
  · exact renderRows_length _ _ _ hrs
  · intro i v0 v1 v2 r hi
    exact renderRows_getElem? _ _ _ hrs i _ hi
  · have hitem := QTableWidget.item_of_rendered
      ({ columnCount := 3, rows := rs, selectedRow := some 0 } : QTableWidget Q)
      (db.getInvoices []) hrs 0 id date total rest (by rw [hinv]; simp)
    simp only [SalesHistoryDialog.selectedInvoiceId]
    rw [show ((0 : Nat) : Int) = 0 from rfl] at hitem ⊢
    rw [hitem]
    rfl

theorem ctor_master_rows_and_selection_witness :
    sampleDb.getInvoices [] = [[(1 : Int), 20240101, 19], [2, 20240102, 42]] ∧
    WellFormedRows [[(2 : Int), 20240102, 42]] ∧
    WellFormedRows (sampleDb.getInvoiceDetails [DbCall.getInvoices] 1) ∧
    ∃ s, SalesHistoryDialog.ctor (some sampleDb) = some s ∧
      s.m_invoicesTable.rowCount = 2 ∧ s.selectedInvoiceId = some 1 :=
  ⟨rfl, by decide, by decide, by
    obtain ⟨s, h1, h2, _, _, _, h6⟩ :=
      ctor_master_rows_and_selection sampleDb (1 : Int) (20240101 : Int) (19 : Int) []
        [[(2 : Int), 20240102, 42]] rfl (by decide) (by decide)
    exact ⟨s, h1, h2, h6⟩⟩

/-- C2: for a store whose invoice list is non-empty, the constructor alone, without any click,
leaves the detail table equal to the rendering of `getInvoiceDetails(firstId)`, `firstId`
being the id of the first returned invoice, and has issued exactly one detail query, with
that id. -/
theorem ctor_shows_first_invoice_details {Q : QtLib} (db : DatabaseManager Q)
    (id date total : Q.QVariant) (rest : List Q.QVariant) (more : List (List Q.QVariant))
    (hinv : db.getInvoices [] = (id :: date :: total :: rest) :: more)
    (hmore : WellFormedRows more)
    (hdet : WellFormedRows (db.getInvoiceDetails [DbCall.getInvoices] (Q.toLongLong id))) :
    ∃ s, SalesHistoryDialog.ctor (some db) = some s ∧
      renderRows (detailCells Q) (db.getInvoiceDetails [DbCall.getInvoices] (Q.toLongLong id)) =
        some s.m_detailsTable.rows ∧
      s.dbCalls = [DbCall.getInvoices, DbCall.getInvoiceDetails (Q.toLongLong id)] := by
  obtain ⟨rs, ds, _, hds, hctor⟩ :=
    SalesHistoryDialog.ctor_nonempty db id date total rest more hinv hmore hdet
  exact ⟨_, hctor, hds, rfl⟩

theorem ctor_shows_first_invoice_details_witness :
    sampleDb.getInvoices [] = [[(1 : Int), 20240101, 19], [2, 20240102, 42]] ∧
    WellFormedRows [[(2 : Int), 20240102, 42]] ∧
    WellFormedRows (sampleDb.getInvoiceDetails [DbCall.getInvoices] 1) ∧
    ∃ s, SalesHistoryDialog.ctor (some sampleDb) = some s ∧
      s.dbCalls = [DbCall.getInvoices, DbCall.getInvoiceDetails 1] :=
  ⟨rfl, by decide, by decide, by
    obtain ⟨s, h1, _, h3⟩ :=
      ctor_shows_first_invoice_details sampleDb (1 : Int) (20240101 : Int) (19 : Int) []
        [[(2 : Int), 20240102, 42]] rfl (by decide) (by decide)
    exact ⟨s, h1, h3⟩⟩

/-- C3: for a store that returns an empty invoice list, the constructor returns a dialog with
an empty master table, no selection, an empty detail table, and `getInvoices` as its only
store query: no `getInvoiceDetails` call has been made. -/
theorem ctor_empty_invoice_list {Q : QtLib} (db : DatabaseManager Q)
    (hinv : db.getInvoices [] = []) :
    ∃ s, SalesHistoryDialog.ctor (some db) = some s ∧
      s.m_invoicesTable.rows = [] ∧
      s.m_invoicesTable.selectedRow = none ∧
      s.selectedInvoiceId = none ∧
      s.m_detailsTable.rows = [] ∧
      s.dbCalls = [DbCall.getInvoices] ∧
      ∀ invoiceId, DbCall.getInvoiceDetails invoiceId ∉ s.dbCalls := by
  have hrs : renderRows (invoiceCells Q) (db.getInvoices []) = some [] := by rw [hinv]; rfl
  refine ⟨_, SalesHistoryDialog.ctor_some db [] hrs, rfl, rfl, rfl, rfl, rfl, ?_⟩
  intro invoiceId hmem
  simp [SalesHistoryDialog.loaded] at hmem

theorem ctor_empty_invoice_list_witness :
    emptyDb.getInvoices [] = [] ∧
    ∃ s, SalesHistoryDialog.ctor (some emptyDb) = some s ∧ s.m_invoicesTable.rows = [] ∧
      s.m_detailsTable.rows = [] ∧ s.dbCalls = [DbCall.getInvoices] :=
  ⟨rfl, by
    obtain ⟨s, h1, h2, _, _, h5, h6, _⟩ := ctor_empty_invoice_list emptyDb rfl
    exact ⟨s, h1, h2, h5, h6⟩⟩

/-- C4: in any dialog state with a database manager and the three-column detail table of
`setupUI`, whatever the detail table showed before, for every row `r` of a master table that
renders the loaded invoices, `onInvoiceSelected(r, _)` queries `getInvoiceDetails` with
exactly the id of the `r`-th loaded invoice (the id stored in that row) and leaves the detail
table equal to the rendering of the returned sequence: one row per line, in the returned
order, holding name text, quantity text and two-decimal price, and nothing else; an empty
answer leaves the detail table empty. -/
theorem onInvoiceSelected_replaces_details {Q : QtLib} (s : SalesHistoryDialog Q)
    (db : DatabaseManager Q) (invoices : List (List Q.QVariant)) (r : Nat) (column : Int)
    (id date total : Q.QVariant) (rest : List Q.QVariant)
    (hdb : s.m_dbManager = some db) (hc : s.m_detailsTable.columnCount = 3)
    (hmaster : renderRows (invoiceCells Q) invoices = some s.m_invoicesTable.rows)
    (hrow : invoices[r]? = some (id :: date :: total :: rest))
    (hwf : WellFormedRows (db.getInvoiceDetails s.dbCalls (Q.toLongLong id))) :
    ∃ s', s.onInvoiceSelected (r : Int) column = some s' ∧
      s'.dbCalls = s.dbCalls ++ [DbCall.getInvoiceDetails (Q.toLongLong id)] ∧
      renderRows (detailCells Q) (db.getInvoiceDetails s.dbCalls (Q.toLongLong id)) =
        some s'.m_detailsTable.rows ∧
      s'.m_detailsTable.rows.length =
        (db.getInvoiceDetails s.dbCalls (Q.toLongLong id)).length ∧
      (∀ (i : Nat) (name quantity price : Q.QVariant) (more : List Q.QVariant),
        (db.getInvoiceDetails s.dbCalls (Q.toLongLong id))[i]? =
          some (name :: quantity :: price :: more) →
        s'.m_detailsTable.rows[i]? = some (detailCells Q name quantity price)) ∧
      (db.getInvoiceDetails s.dbCalls (Q.toLongLong id) = [] → s'.m_detailsTable.rows = []) ∧
      s'.m_invoicesTable = s.m_invoicesTable := by
  have hitem := QTableWidget.item_of_rendered s.m_invoicesTable invoices hmaster r id date total
    rest hrow
  obtain ⟨ds, hds⟩ := renderRows_of_wellFormed (detailCells Q) _ hwf
  have hstep := SalesHistoryDialog.onInvoiceSelected_eq s db (r : Int) column _ hdb hc hitem
  simp only [QTableWidgetItem.data, Option.getD_some] at hstep
  rw [hds, Option.map_some'] at hstep
  refine ⟨_, hstep, rfl, hds, renderRows_length _ _ _ hds, ?_, ?_, rfl⟩
  · intro i name quantity price more hi
    exact renderRows_getElem? _ _ _ hds i _ hi
  · intro hempty
    rw [hempty] at hds
    simp only [renderRows, Option.some.injEq] at hds
    exact hds.symm

theorem onInvoiceSelected_replaces_details_witness :
    sampleDialog.m_dbManager = some sampleDb ∧
    sampleDialog.m_detailsTable.columnCount = 3 ∧
    renderRows (invoiceCells sampleQt) [[(1 : Int), 20240101, 19], [2, 20240102, 42]] =
      some sampleDialog.m_invoicesTable.rows ∧
    [[(1 : Int), 20240101, 19], [2, 20240102, 42]][1]? = some [(2 : Int), 20240102, 42] ∧
    WellFormedRows (sampleDb.getInvoiceDetails sampleDialog.dbCalls 2) ∧
    ∃ s', sampleDialog.onInvoiceSelected 1 5 = some s' ∧
      s'.dbCalls = [DbCall.getInvoices, DbCall.getInvoiceDetails 1, DbCall.getInvoiceDetails 2] ∧
      s'.m_detailsTable.rows.length = 1 :=
  ⟨rfl, rfl, rfl, rfl, by decide, by
    obtain ⟨s', h1, h2, _, h4, _⟩ :=
      onInvoiceSelected_replaces_details sampleDialog sampleDb
        [[(1 : Int), 20240101, 19], [2, 20240102, 42]] 1 5 (2 : Int) (20240102 : Int) (42 : Int) []
        rfl rfl rfl rfl (by decide)
    exact ⟨s', h1, h2, h4⟩⟩

/-- C6: for every rendered row `r`, two calls of `onInvoiceSelected(r, _)` in a row issue two
`getInvoiceDetails` queries with the same id (the second call is not short-circuited), and
when the store answers the second query with the same sequence as the first, the detail
table after the second call equals the detail table after the first. -/
theorem onInvoiceSelected_twice {Q : QtLib} (s : SalesHistoryDialog Q)
    (db : DatabaseManager Q) (invoices : List (List Q.QVariant)) (r : Nat) (c1 c2 : Int)
    (id date total : Q.QVariant) (rest : List Q.QVariant)
    (hdb : s.m_dbManager = some db) (hc : s.m_detailsTable.columnCount = 3)
    (hmaster : renderRows (invoiceCells Q) invoices = some s.m_invoicesTable.rows)
    (hrow : invoices[r]? = some (id :: date :: total :: rest))
    (hwf1 : WellFormedRows (db.getInvoiceDetails s.dbCalls (Q.toLongLong id)))
    (hwf2 : WellFormedRows (db.getInvoiceDetails
      (s.dbCalls ++ [DbCall.getInvoiceDetails (Q.toLongLong id)]) (Q.toLongLong id))) :
    ∃ s1 s2, s.onInvoiceSelected (r : Int) c1 = some s1 ∧
      s1.onInvoiceSelected (r : Int) c2 = some s2 ∧
      s1.dbCalls = s.dbCalls ++ [DbCall.getInvoiceDetails (Q.toLongLong id)] ∧
      s2.dbCalls = s.dbCalls ++ [DbCall.getInvoiceDetails (Q.toLongLong id),
        DbCall.getInvoiceDetails (Q.toLongLong id)] ∧
      (db.getInvoiceDetails (s.dbCalls ++ [DbCall.getInvoiceDetails (Q.toLongLong id)])
          (Q.toLongLong id) = db.getInvoiceDetails s.dbCalls (Q.toLongLong id) →
        s2.m_detailsTable = s1.m_detailsTable) := by
  have hitem := QTableWidget.item_of_rendered s.m_invoicesTable invoices hmaster r id date total
    rest hrow
  obtain ⟨ds1, hds1⟩ := renderRows_of_wellFormed (detailCells Q) _ hwf1
  obtain ⟨ds2, hds2⟩ := renderRows_of_wellFormed (detailCells Q) _ hwf2
  have hstep1 := SalesHistoryDialog.onInvoiceSelected_eq s db (r : Int) c1 _ hdb hc hitem
  simp only [QTableWidgetItem.data, Option.getD_some] at hstep1
  rw [hds1, Option.map_some'] at hstep1
  have hstep2 := SalesHistoryDialog.onInvoiceSelected_eq _ db (r : Int) c2 _
    (show ({ s with
        m_detailsTable := { columnCount := 3, rows := ds1, selectedRow := none }
        dbCalls := s.dbCalls ++ [DbCall.getInvoiceDetails (Q.toLongLong id)] } :
        SalesHistoryDialog Q).m_dbManager = some db from hdb) rfl hitem
  simp only [QTableWidgetItem.data, Option.getD_some] at hstep2
  rw [hds2, Option.map_some'] at hstep2
  refine ⟨_, _, hstep1, hstep2, rfl, ?_, ?_⟩
  · simp
  · intro hsame
    rw [hsame, hds1, Option.some.injEq] at hds2
    simp only [hds2]

theorem onInvoiceSelected_twice_witness :
    sampleDialog.m_dbManager = some sampleDb ∧
    sampleDialog.m_detailsTable.columnCount = 3 ∧
    renderRows (invoiceCells sampleQt) [[(1 : Int), 20240101, 19], [2, 20240102, 42]] =
      some sampleDialog.m_invoicesTable.rows ∧
    [[(1 : Int), 20240101, 19], [2, 20240102, 42]][1]? = some [(2 : Int), 20240102, 42] ∧
    WellFormedRows (sampleDb.getInvoiceDetails sampleDialog.dbCalls 2) ∧
    WellFormedRows (sampleDb.getInvoiceDetails
      (sampleDialog.dbCalls ++ [DbCall.getInvoiceDetails 2]) 2) ∧
    ∃ s1 s2, sampleDialog.onInvoiceSelected 1 0 = some s1 ∧
      s1.onInvoiceSelected 1 2 = some s2 ∧
      s2.dbCalls = sampleDialog.dbCalls ++
        [DbCall.getInvoiceDetails 2, DbCall.getInvoiceDetails 2] ∧
      s2.m_detailsTable = s1.m_detailsTable :=
  ⟨rfl, rfl, rfl, rfl, by decide, by decide, by
    obtain ⟨s1, s2, h1, h2, _, h4, h5⟩ :=
      onInvoiceSelected_twice sampleDialog sampleDb
        [[(1 : Int), 20240101, 19], [2, 20240102, 42]] 1 0 2 (2 : Int) (20240102 : Int) (42 : Int)
        [] rfl rfl rfl rfl (by decide) (by decide)
    exact ⟨s1, s2, h1, h2, h4, h5 rfl⟩⟩

/-- C7: in every dialog state, for every row index at which the master table has no id item,
in particular a negative index or one not below the row count, `onInvoiceSelected` returns
the state it was given: master rows, detail rows and selection are unchanged and no store
query is recorded. -/
theorem onInvoiceSelected_ignores_missing_row {Q : QtLib} (s : SalesHistoryDialog Q)
    (row column : Int)
    (h : s.m_invoicesTable.item row 0 = none ∨ row < 0 ∨
      (s.m_invoicesTable.rowCount : Int) ≤ row) :
    s.onInvoiceSelected row column = some s := by
  apply SalesHistoryDialog.onInvoiceSelected_missing
  rcases h with h | h | h
  · exact h
  · exact QTableWidget.item_out_of_range _ _ _ (Or.inl h)
  · exact QTableWidget.item_out_of_range _ _ _ (Or.inr h)

theorem onInvoiceSelected_ignores_missing_row_witness :
    (sampleDialog.m_invoicesTable.item 2 0 = none ∨ (2 : Int) < 0 ∨
      (sampleDialog.m_invoicesTable.rowCount : Int) ≤ 2) ∧
    sampleDialog.onInvoiceSelected 2 1 = some sampleDialog :=
  ⟨Or.inl rfl, onInvoiceSelected_ignores_missing_row sampleDialog 2 1 (Or.inl rfl)⟩

/-- C8: without a database manager the constructor returns a dialog (it does not fail), the
warning is written, the master table and the detail table are empty, nothing is selected,
and no store query has been issued. -/
theorem ctor_without_database_manager (Q : QtLib) :
    ∃ s, SalesHistoryDialog.ctor (none : Option (DatabaseManager Q)) = some s ∧
      s.warnings = ["DatabaseManager not available in SalesHistoryDialog."] ∧
      s.m_invoicesTable.rows = [] ∧
      s.m_detailsTable.rows = [] ∧
      s.m_invoicesTable.selectedRow = none ∧
      s.selectedInvoiceId = none ∧
      s.dbCalls = [] :=
  ⟨_, SalesHistoryDialog.ctor_none, rfl, rfl, rfl, rfl, rfl, rfl⟩

/-- C10: `onInvoiceSelected` calls through `m_dbManager` without a null check, and the call
is never reached without a manager: in every state reachable from the constructor, if the
database manager is absent then the master table has no rows, so at every row index the
item lookup is null and the slot returns at its guard, leaving the state as it was. -/
theorem null_manager_call_unreachable {Q : QtLib} (dbManager : Option (DatabaseManager Q))
    (s : SalesHistoryDialog Q) (hreach : SalesHistoryDialog.Reachable dbManager s)
    (hnull : s.m_dbManager = none) :
    s.m_invoicesTable.rowCount = 0 ∧
    ∀ row column : Int,
      s.m_invoicesTable.item row 0 = none ∧ s.onInvoiceSelected row column = some s := by
  obtain ⟨hdb, _, _, hempty, _, _⟩ := SalesHistoryDialog.inv_of_reachable dbManager s hreach
  have hrows : s.m_invoicesTable.rows = [] := hempty (by rw [← hdb]; exact hnull)
  have hcount : s.m_invoicesTable.rowCount = 0 := by
    simp only [QTableWidget.rowCount, hrows, List.length_nil]
  refine ⟨hcount, fun row column => ?_⟩
  have hitem : s.m_invoicesTable.item row 0 = none := by
    apply QTableWidget.item_out_of_range
    rw [hcount]
    omega
  exact ⟨hitem, SalesHistoryDialog.onInvoiceSelected_missing s row column hitem⟩

theorem null_manager_call_unreachable_witness :
    SalesHistoryDialog.Reachable none sampleDialogNoDb ∧
    sampleDialogNoDb.m_dbManager = none ∧
    sampleDialogNoDb.m_invoicesTable.rowCount = 0 ∧
    sampleDialogNoDb.onInvoiceSelected 0 0 = some sampleDialogNoDb :=
  have hreach : SalesHistoryDialog.Reachable none sampleDialogNoDb :=
    SalesHistoryDialog.Reachable.handle sampleDialogNoDb sampleDialogNoDb 0 0
      (SalesHistoryDialog.Reachable.construct sampleDialogNoDb rfl) rfl
  ⟨hreach, rfl,
    (null_manager_call_unreachable none sampleDialogNoDb hreach rfl).1,
    ((null_manager_call_unreachable none sampleDialogNoDb hreach rfl).2 0 0).2⟩
